import Mathlib

/-!
# Verification of the Query & Tool-Dispatch Engine

A shallow embedding, in Lean 4, of the filtering/ranking engine
(`backend/data_processor.py`), the dispatcher (`backend/openai_functions.py`)
and the conversation orchestrator (`backend/chat_handler.py`) of the
investment-advisor repository, together with theorems settling the spec's
claims about them.

Conventions of the embedding:
* a pandas `DataFrame` of stock rows becomes a `List StockRecord`
  (rows in file order);
* nullable numeric columns become `Option ℚ` (a `none` cell is pandas `NaN`),
  nullable string columns become `Option String`;
* `df.nlargest(n, col)` (with the default `keep='first'`) drops null keys,
  stable-sorts the remaining rows descending by the key and keeps the first
  `n`; this is `nlargestBy` below;
* `Series.unique()` (first-occurrence order) is `pdUnique`;
* Python dicts returned by the engine become structures / inductive result
  types, one constructor per distinct result shape of the source function;
* the two blocking OpenAI chat-completion calls of the orchestrator are
  oracles, passed in as `List ChatMessage → Except String ModelMessage`
  functions; an `Except.error` outcome is the fault the source catches in
  its `try/except` block.
-/

namespace StockAdvisor

open List

/-- One row of the semicolon-separated dataset, restricted to the columns the
engine functions under verification actually read.  `Stars` is a non-null
integer 0–4; metric columns are nullable numerics; classification and rating
columns are nullable strings (the source filters them with `na=False`). -/
structure StockRecord where
  ticker : String
  isin : String
  name : String
  stars : Int
  sector : Option String
  industry : Option String
  price : Option ℚ
  market_cap_bn : Option ℚ
  global_evaluation : Option String
  ytd_performance : Option ℚ
  valuation_rating : Option String
  industry_global_evaluation : Option String
  four_weeks_performance : Option ℚ
  long_term_pe : Option ℚ
  return_on_equity : Option ℚ
  long_term_growth : Option ℚ
  expected_dividend : Option ℚ
deriving DecidableEq, Repr

/-- A string lowered character by character, as a character list (the model of
Python lower-casing used by `case=False` matching). -/
def lowerChars (s : String) : List Char := s.data.map Char.toLower

/-- Case-insensitive substring test: Python
`haystack.contains(needle, case=False)` on a string cell. -/
def containsCI (haystack needle : String) : Bool :=
  decide (lowerChars needle <:+: lowerChars haystack)

/-- `series.str.contains(needle, case=False, na=False)` on a nullable string
cell: a null cell never matched. -/
def cellContains (cell : Option String) (needle : String) : Bool :=
  match cell with
  | none => false
  | some s => containsCI s needle

/-- `pandas.Series.unique().tolist()`: distinct values in order of first
occurrence (later duplicates of the head are filtered out of the recursive
result). -/
def pdUnique [DecidableEq α] : List α → List α
  | [] => []
  | a :: rest => a :: (pdUnique rest).filter (fun b => b ≠ a)

/-- `df.nlargest(n, col)` for a non-null key column: rows stable-sorted in
descending key order (ties keep original row order, `keep='first'`), truncated
to the first `n`.  Rendered as a stable insertion sort under the non-strict
descending-key relation: later rows are inserted behind equal keys. -/
def nlargestBy {κ : Type} [LinearOrder κ] (key : α → κ) (n : Nat)
    (l : List α) : List α :=
  (l.insertionSort (fun a b => key b ≤ key a)).take n

/-- `df.nlargest(n, col)` for a nullable key column: pandas first drops the
rows whose key is null (`dropna`), then proceeds as `nlargestBy`. -/
def nlargestByOpt (key : α → Option ℚ) (n : Nat) (l : List α) : List α :=
  nlargestBy (fun a => (key a).getD 0) n (l.filter (fun a => (key a).isSome))

/-! ## `get_top_stocks_by_stars` (`data_processor.py`, lines 44–90) -/

/-- The projected row dictionary built by `get_top_stocks_by_stars`. -/
structure TopStockInfo where
  ticker : String
  isin : String
  name : String
  stars : Int
  sector : Option String
  industry : Option String
  price : Option ℚ
  market_cap_bn : Option ℚ
  global_evaluation : Option String
  ytd_performance : Option ℚ
  valuation_rating : Option String
deriving DecidableEq, Repr

/-- The `stock_info` projection in the loop of `get_top_stocks_by_stars`. -/
def mkTopStockInfo (r : StockRecord) : TopStockInfo :=
  { ticker := r.ticker, isin := r.isin, name := r.name, stars := r.stars,
    sector := r.sector, industry := r.industry, price := r.price,
    market_cap_bn := r.market_cap_bn,
    global_evaluation := r.global_evaluation,
    ytd_performance := r.ytd_performance,
    valuation_rating := r.valuation_rating }

/-- Result envelope of `get_top_stocks_by_stars`: either the
`{"error": "No data available", "stocks": []}` dict, or the success dict
`{stocks, total_found, returned, filter_criteria}`. -/
inductive TopStocksResult
  | noData (error : String) (stocks : List TopStockInfo)
  | ok (stocks : List TopStockInfo) (total_found : Nat) (returned : Nat)
      (filter_criteria : String)
deriving DecidableEq, Repr

/-- `get_top_stocks_by_stars(min_stars, limit)`: keep rows with
`Stars >= min_stars`, take the `limit` largest by `Stars`
(`nlargest`: descending, stable), project each row. -/
def get_top_stocks_by_stars (tbl : List StockRecord) (min_stars : Int)
    (limit : Nat) : TopStocksResult :=
  if tbl.isEmpty then .noData "No data available" []
  else
    let filtered := tbl.filter (fun r => min_stars ≤ r.stars)
    let top := nlargestBy (fun r => r.stars) limit filtered
    let stocks := top.map mkTopStockInfo
    .ok stocks filtered.length stocks.length s!"Stars >= {min_stars}"

/-! ## `filter_stocks_by_industry` / `filter_stocks_by_sector`
(`data_processor.py`, lines 92–226) -/

/-- The fixed 7-level ordinal scale of the `Global Evaluation` column
(`eval_order` in the source). -/
def eval_order : List String :=
  ["very negative", "negative", "slightly negative", "neutral",
   "slightly positive", "positive", "very positive"]

/-- The `eval_rank` column: `eval_order.index(x) if x in eval_order else 3`.
A null cell is likewise not in the list and maps to 3. -/
def evalRank (x : Option String) : Nat :=
  match x with
  | some s => if s ∈ eval_order then eval_order.indexOf s else 3
  | none => 3

/-- The projected row dictionary built by `filter_stocks_by_industry`. -/
structure IndustryStockInfo where
  ticker : String
  isin : String
  name : String
  industry : Option String
  sector : Option String
  stars : Int
  price : Option ℚ
  global_evaluation : Option String
  industry_global_evaluation : Option String
  ytd_performance : Option ℚ
  valuation_rating : Option String
  market_cap_bn : Option ℚ
deriving DecidableEq, Repr

/-- The `stock_info` projection in the loop of `filter_stocks_by_industry`. -/
def mkIndustryStockInfo (r : StockRecord) : IndustryStockInfo :=
  { ticker := r.ticker, isin := r.isin, name := r.name,
    industry := r.industry, sector := r.sector, stars := r.stars,
    price := r.price, global_evaluation := r.global_evaluation,
    industry_global_evaluation := r.industry_global_evaluation,
    ytd_performance := r.ytd_performance,
    valuation_rating := r.valuation_rating,
    market_cap_bn := r.market_cap_bn }

/-- Result envelope of `filter_stocks_by_industry`: the no-data error dict,
the no-match error dict carrying `available_industries`, or the success dict. -/
inductive IndustryFilterResult
  | noData (error : String) (stocks : List IndustryStockInfo)
  | notFound (error : String) (available_industries : List (Option String))
      (stocks : List IndustryStockInfo)
  | ok (stocks : List IndustryStockInfo) (industry : String)
      (total_in_industry : Nat) (returned : Nat) (sorted_by : String)
deriving DecidableEq, Repr

/-- The sort step shared by the industry and sector filters: `nlargest` over
`Stars`, over the derived `eval_rank` column, or (for any other `sort_by`
string) over `Year to date performance`. -/
def sortFilteredStocks (sort_by : String) (limit : Nat)
    (matched : List StockRecord) : List StockRecord :=
  if sort_by = "Stars" then
    nlargestBy (fun r => r.stars) limit matched
  else if sort_by = "Global Evaluation" then
    nlargestBy (fun r => evalRank r.global_evaluation) limit matched
  else
    nlargestByOpt (fun r => r.ytd_performance) limit matched

/-- `filter_stocks_by_industry(industry_name, sort_by, limit)`: case-insensitive
substring filter on the `Industry` column (null cells never match); on no match,
an error carrying `df['Industry'].unique()`; otherwise sort and project. -/
def filter_stocks_by_industry (tbl : List StockRecord) (industry_name : String)
    (sort_by : String) (limit : Nat) : IndustryFilterResult :=
  if tbl.isEmpty then .noData "No data available" []
  else
    let matched := tbl.filter (fun r => cellContains r.industry industry_name)
    if matched.isEmpty then
      .notFound s!"No stocks found for industry: {industry_name}"
        (pdUnique (tbl.map (fun r => r.industry))) []
    else
      let sorted := sortFilteredStocks sort_by limit matched
      let stocks := sorted.map mkIndustryStockInfo
      .ok stocks industry_name matched.length stocks.length sort_by

/-- The projected row dictionary built by `filter_stocks_by_sector`. -/
structure SectorStockInfo where
  ticker : String
  isin : String
  name : String
  sector : Option String
  industry : Option String
  stars : Int
  price : Option ℚ
  global_evaluation : Option String
  ytd_performance : Option ℚ
  valuation_rating : Option String
  market_cap_bn : Option ℚ
deriving DecidableEq, Repr

/-- The `stock_info` projection in the loop of `filter_stocks_by_sector`. -/
def mkSectorStockInfo (r : StockRecord) : SectorStockInfo :=
  { ticker := r.ticker, isin := r.isin, name := r.name,
    sector := r.sector, industry := r.industry, stars := r.stars,
    price := r.price, global_evaluation := r.global_evaluation,
    ytd_performance := r.ytd_performance,
    valuation_rating := r.valuation_rating,
    market_cap_bn := r.market_cap_bn }

/-- Result envelope of `filter_stocks_by_sector`. -/
inductive SectorFilterResult
  | noData (error : String) (stocks : List SectorStockInfo)
  | notFound (error : String) (available_sectors : List (Option String))
      (stocks : List SectorStockInfo)
  | ok (stocks : List SectorStockInfo) (sector : String)
      (total_in_sector : Nat) (returned : Nat) (sorted_by : String)
deriving DecidableEq, Repr

/-- `filter_stocks_by_sector(sector_name, sort_by, limit)`: same shape as the
industry filter, over the `Sector` column. -/
def filter_stocks_by_sector (tbl : List StockRecord) (sector_name : String)
    (sort_by : String) (limit : Nat) : SectorFilterResult :=
  if tbl.isEmpty then .noData "No data available" []
  else
    let matched := tbl.filter (fun r => cellContains r.sector sector_name)
    if matched.isEmpty then
      .notFound s!"No stocks found for sector: {sector_name}"
        (pdUnique (tbl.map (fun r => r.sector))) []
    else
      let sorted := sortFilteredStocks sort_by limit matched
      let stocks := sorted.map mkSectorStockInfo
      .ok stocks sector_name matched.length stocks.length sort_by

/-! ## `compare_stocks_performance` (`data_processor.py`, lines 307–357) -/

/-- `df[(df['Ticker'] == stock_id) | (df['ISIN'] == stock_id)]`: the row
predicate used by lookup and compare. -/
def idMatches (stock_id : String) (r : StockRecord) : Bool :=
  r.ticker == stock_id || r.isin == stock_id

/-- The `stock_comparison` row dictionary built by
`compare_stocks_performance`. -/
structure CompareStockInfo where
  ticker : String
  name : String
  stars : Int
  price : Option ℚ
  market_cap_bn : Option ℚ
  ytd_performance : Option ℚ
  four_weeks_performance : Option ℚ
  long_term_pe : Option ℚ
  return_on_equity : Option ℚ
  long_term_growth : Option ℚ
  global_evaluation : Option String
  valuation_rating : Option String
  expected_dividend : Option ℚ
deriving DecidableEq, Repr

/-- The `stock_comparison` projection of the first matching row. -/
def mkCompareStockInfo (r : StockRecord) : CompareStockInfo :=
  { ticker := r.ticker, name := r.name, stars := r.stars, price := r.price,
    market_cap_bn := r.market_cap_bn,
    ytd_performance := r.ytd_performance,
    four_weeks_performance := r.four_weeks_performance,
    long_term_pe := r.long_term_pe,
    return_on_equity := r.return_on_equity,
    long_term_growth := r.long_term_growth,
    global_evaluation := r.global_evaluation,
    valuation_rating := r.valuation_rating,
    expected_dividend := r.expected_dividend }

/-- The loop of `compare_stocks_performance`: each id is resolved
independently; the first matching row (`iloc[0]`) is appended to
`comparison_data`, an unmatched id is appended to `not_found`.  Appending at
the tail of the accumulators is rendered as consing onto the result of the
recursive call over the remaining ids. -/
def comparePass (tbl : List StockRecord) :
    List String → List CompareStockInfo × List String
  | [] => ([], [])
  | stock_id :: rest =>
    let res := comparePass tbl rest
    match tbl.find? (fun r => idMatches stock_id r) with
    | some r => (mkCompareStockInfo r :: res.1, res.2)
    | none => (res.1, stock_id :: res.2)

/-- Result envelope of `compare_stocks_performance`. -/
inductive CompareResult
  | noData (error : String)
  | ok (comparison : List CompareStockInfo) (not_found : List String)
      (compared_count : Nat)
deriving DecidableEq, Repr

/-- `compare_stocks_performance(stock_list)`. -/
def compare_stocks_performance (tbl : List StockRecord)
    (stock_list : List String) : CompareResult :=
  if tbl.isEmpty then .noData "No data available"
  else
    let res := comparePass tbl stock_list
    .ok res.1 res.2 res.1.length

/-! ## `get_industry_overview` (`data_processor.py`, lines 359–397) -/

/-- `Series.mean()` of a nullable numeric column: null cells are skipped
(`skipna`); the mean of zero non-null values — the all-null column, where
pandas' sum/count division is 0/0 — is `NaN`, rendered `none`. -/
def pdMeanOpt (l : List (Option ℚ)) : Option ℚ :=
  let vs := l.filterMap id
  if vs.isEmpty then none else some (vs.sum / vs.length)

/-- `Series.mean()` of the non-null integer `Stars` column. -/
def pdMeanInt (l : List Int) : Option ℚ :=
  if l.isEmpty then none else some ((l.map (fun i => (i : ℚ))).sum / l.length)

/-- `Series.value_counts().to_dict()` of a nullable string column: null cells
are excluded, each distinct value is paired with its frequency, ordered by
descending count (pandas leaves the order among equal counts unspecified; the
model keeps first-occurrence order there). -/
def valueCounts (l : List (Option String)) : List (String × Nat) :=
  let vs := l.filterMap id
  nlargestBy (fun p => p.2) vs.length
    ((pdUnique vs).map (fun v => (v, vs.count v)))

/-- One record of `industry_df.nlargest(3, 'Stars')[['Ticker','Name','Stars']]`. -/
structure TopPerformerInfo where
  ticker : String
  name : String
  stars : Int
deriving DecidableEq, Repr

/-- The `overview` dictionary of `get_industry_overview`. -/
structure IndustryOverview where
  industry_name : String
  total_stocks : Nat
  average_stars : Option ℚ
  average_ytd_performance : Option ℚ
  average_market_cap_bn : Option ℚ
  average_pe_ratio : Option ℚ
  average_expected_dividend : Option ℚ
  top_performers : List TopPerformerInfo
  evaluation_distribution : List (String × Nat)
  valuation_distribution : List (String × Nat)
deriving DecidableEq, Repr

/-- Result envelope of `get_industry_overview`. -/
inductive OverviewResult
  | noData (error : String)
  | notFound (error : String)
  | ok (overview : IndustryOverview)
deriving DecidableEq, Repr

/-- `get_industry_overview(industry_name)`: case-insensitive substring filter
on `Industry`, then aggregate statistics over the matching rows. -/
def get_industry_overview (tbl : List StockRecord) (industry_name : String) :
    OverviewResult :=
  if tbl.isEmpty then .noData "No data available"
  else
    let matched := tbl.filter (fun r => cellContains r.industry industry_name)
    if matched.isEmpty then
      .notFound s!"No stocks found for industry: {industry_name}"
    else
      .ok
        { industry_name := industry_name,
          total_stocks := matched.length,
          average_stars := pdMeanInt (matched.map (fun r => r.stars)),
          average_ytd_performance :=
            pdMeanOpt (matched.map (fun r => r.ytd_performance)),
          average_market_cap_bn :=
            pdMeanOpt (matched.map (fun r => r.market_cap_bn)),
          average_pe_ratio := pdMeanOpt (matched.map (fun r => r.long_term_pe)),
          average_expected_dividend :=
            pdMeanOpt (matched.map (fun r => r.expected_dividend)),
          top_performers :=
            (nlargestBy (fun r => r.stars) 3 matched).map
              (fun r => ⟨r.ticker, r.name, r.stars⟩),
          evaluation_distribution :=
            valueCounts (matched.map (fun r => r.global_evaluation)),
          valuation_distribution :=
            valueCounts (matched.map (fun r => r.valuation_rating)) }

/-! ## `search_stocks_by_criteria` (`data_processor.py`, lines 399–482) -/

/-- The `criteria_dict` argument: one optional entry per recognized key.  An
absent key (`none`) imposes no constraint. -/
structure Criteria where
  min_stars : Option Int
  max_stars : Option Int
  min_ytd_performance : Option ℚ
  max_pe_ratio : Option ℚ
  valuation_rating : Option String
  global_evaluation : Option String
  sector : Option String
  industry : Option String
  limit : Option Nat
deriving DecidableEq, Repr

/-- The empty criteria dictionary `{}`. -/
def emptyCriteria : Criteria :=
  ⟨none, none, none, none, none, none, none, none, none⟩

/-- A pandas `series >= v` row predicate on a nullable numeric column:
a null cell compares false and is dropped by the filter. -/
def cellGe (cell : Option ℚ) (v : ℚ) : Bool :=
  match cell with
  | none => false
  | some y => v ≤ y

/-- A pandas `series <= v` row predicate on a nullable numeric column. -/
def cellLe (cell : Option ℚ) (v : ℚ) : Bool :=
  match cell with
  | none => false
  | some y => y ≤ v

/-- One `if key in criteria_dict: filtered_df = filtered_df[...]` step of
`search_stocks_by_criteria`: an absent key leaves the frame unchanged, a
present key filters it by the key's row predicate. -/
def applyIf (o : Option β) (p : β → StockRecord → Bool)
    (l : List StockRecord) : List StockRecord :=
  match o with
  | none => l
  | some v => l.filter (p v)

/-- The row predicate induced by one optional criterion: an absent key
constrains nothing. -/
def criterionHolds (o : Option β) (p : β → StockRecord → Bool)
    (r : StockRecord) : Bool :=
  match o with
  | none => true
  | some v => p v r

/-- The `filtered_df` of `search_stocks_by_criteria` (lines 416–450): starting
from the full table, each present criterion is applied in source order as a
further `filter`. -/
def searchFiltered (tbl : List StockRecord) (c : Criteria) :
    List StockRecord :=
  let f := tbl
  let f := applyIf c.min_stars (fun v r => v ≤ r.stars) f
  let f := applyIf c.max_stars (fun v r => r.stars ≤ v) f
  let f := applyIf c.min_ytd_performance (fun v r => cellGe r.ytd_performance v) f
  let f := applyIf c.max_pe_ratio (fun v r => cellLe r.long_term_pe v) f
  let f := applyIf c.valuation_rating (fun s r => cellContains r.valuation_rating s) f
  let f := applyIf c.global_evaluation (fun s r => cellContains r.global_evaluation s) f
  let f := applyIf c.sector (fun s r => cellContains r.sector s) f
  let f := applyIf c.industry (fun s r => cellContains r.industry s) f
  f

/-- The conjunction (logical AND) of all present criteria of `c` at one row:
the pointwise reading of the sequential filters of `searchFiltered`. -/
def satisfiesCriteria (c : Criteria) (r : StockRecord) : Bool :=
  criterionHolds c.min_stars (fun v r => v ≤ r.stars) r &&
  criterionHolds c.max_stars (fun v r => r.stars ≤ v) r &&
  criterionHolds c.min_ytd_performance (fun v r => cellGe r.ytd_performance v) r &&
  criterionHolds c.max_pe_ratio (fun v r => cellLe r.long_term_pe v) r &&
  criterionHolds c.valuation_rating (fun s r => cellContains r.valuation_rating s) r &&
  criterionHolds c.global_evaluation (fun s r => cellContains r.global_evaluation s) r &&
  criterionHolds c.sector (fun s r => cellContains r.sector s) r &&
  criterionHolds c.industry (fun s r => cellContains r.industry s) r

/-- `c'` is `c` with one additional constraint: the criteria dictionaries
agree except that one key absent from `c` is present in `c'`. -/
inductive AddsConstraint : Criteria → Criteria → Prop
  | min_stars (c : Criteria) (v : Int) (h : c.min_stars = none) :
      AddsConstraint c { c with min_stars := some v }
  | max_stars (c : Criteria) (v : Int) (h : c.max_stars = none) :
      AddsConstraint c { c with max_stars := some v }
  | min_ytd_performance (c : Criteria) (v : ℚ)
      (h : c.min_ytd_performance = none) :
      AddsConstraint c { c with min_ytd_performance := some v }
  | max_pe_ratio (c : Criteria) (v : ℚ) (h : c.max_pe_ratio = none) :
      AddsConstraint c { c with max_pe_ratio := some v }
  | valuation_rating (c : Criteria) (s : String)
      (h : c.valuation_rating = none) :
      AddsConstraint c { c with valuation_rating := some s }
  | global_evaluation (c : Criteria) (s : String)
      (h : c.global_evaluation = none) :
      AddsConstraint c { c with global_evaluation := some s }
  | sector (c : Criteria) (s : String) (h : c.sector = none) :
      AddsConstraint c { c with sector := some s }
  | industry (c : Criteria) (s : String) (h : c.industry = none) :
      AddsConstraint c { c with industry := some s }
  | limit (c : Criteria) (v : Nat) (h : c.limit = none) :
      AddsConstraint c { c with limit := some v }

/-- The `applied_filters` description list accumulated alongside the filters,
in the same source order. -/
def searchAppliedFilters (c : Criteria) : List String :=
  (match c.min_stars with
    | none => [] | some v => [s!"Stars >= {v}"]) ++
  (match c.max_stars with
    | none => [] | some v => [s!"Stars <= {v}"]) ++
  (match c.min_ytd_performance with
    | none => [] | some v => [s!"YTD Performance >= {v}"]) ++
  (match c.max_pe_ratio with
    | none => [] | some v => [s!"PE Ratio <= {v}"]) ++
  (match c.valuation_rating with
    | none => [] | some s => [s!"Valuation Rating: {s}"]) ++
  (match c.global_evaluation with
    | none => [] | some s => [s!"Global Evaluation: {s}"]) ++
  (match c.sector with
    | none => [] | some s => [s!"Sector: {s}"]) ++
  (match c.industry with
    | none => [] | some s => [s!"Industry: {s}"])

/-- The projected row dictionary built by `search_stocks_by_criteria`. -/
structure SearchStockInfo where
  ticker : String
  isin : String
  name : String
  stars : Int
  sector : Option String
  industry : Option String
  price : Option ℚ
  global_evaluation : Option String
  ytd_performance : Option ℚ
  valuation_rating : Option String
  market_cap_bn : Option ℚ
deriving DecidableEq, Repr

/-- The `stock_info` projection in the loop of `search_stocks_by_criteria`. -/
def mkSearchStockInfo (r : StockRecord) : SearchStockInfo :=
  { ticker := r.ticker, isin := r.isin, name := r.name, stars := r.stars,
    sector := r.sector, industry := r.industry, price := r.price,
    global_evaluation := r.global_evaluation,
    ytd_performance := r.ytd_performance,
    valuation_rating := r.valuation_rating,
    market_cap_bn := r.market_cap_bn }

/-- Result envelope of `search_stocks_by_criteria`. -/
inductive SearchResult
  | noData (error : String) (stocks : List SearchStockInfo)
  | ok (stocks : List SearchStockInfo) (total_matches : Nat) (returned : Nat)
      (applied_filters : List String)
deriving DecidableEq, Repr

/-- `search_stocks_by_criteria(criteria_dict)`: apply each present criterion as
an intersection, then return the `criteria_dict.get('limit', 20)` largest
matched by `Stars`. -/
def search_stocks_by_criteria (tbl : List StockRecord) (c : Criteria) :
    SearchResult :=
  if tbl.isEmpty then .noData "No data available" []
  else
    let filtered := searchFiltered tbl c
    let result := nlargestBy (fun r => r.stars) (c.limit.getD 20) filtered
    let stocks := result.map mkSearchStockInfo
    .ok stocks filtered.length stocks.length (searchAppliedFilters c)

/-! ## Dispatcher: `execute_function` for `search_stocks_by_criteria`
(`openai_functions.py`, lines 240–283) -/

/-- A value of the argument payload dictionary.  Per the tool schema, a
`criteria_dict` entry holds an object; any other entry holds a scalar or an
array, none of which the `search_stocks_by_criteria` dispatch branch reads. -/
inductive ArgValue
  | criteria (c : Criteria)
  | str (s : String)
  | int (i : Int)
  | num (q : ℚ)
  | strList (l : List String)
deriving DecidableEq, Repr

/-- Result envelope of `execute_function` for the search tool: either the
`except TypeError` invalid-arguments envelope, or the engine's own result. -/
inductive ExecSearchResult
  | invalidArguments (error : String)
      (provided_arguments : List (String × ArgValue))
  | result (r : SearchResult)
deriving DecidableEq, Repr

/-- `execute_function("search_stocks_by_criteria", arguments)`.  An empty
payload takes the `if not arguments` branch, which calls the engine function
with no argument at all; the missing required `criteria_dict` parameter raises
`TypeError`, caught and converted into the invalid-arguments envelope.  A
non-empty payload takes the search-specific branch
`function(arguments.get("criteria_dict", {}))`. -/
def execute_search_function (tbl : List StockRecord)
    (arguments : List (String × ArgValue)) : ExecSearchResult :=
  if arguments.isEmpty then
    .invalidArguments
      "Invalid arguments for function 'search_stocks_by_criteria': search_stocks_by_criteria() missing 1 required positional argument: 'criteria_dict'"
      arguments
  else
    .result (search_stocks_by_criteria tbl
      (match arguments.lookup "criteria_dict" with
        | some (ArgValue.criteria c) => c
        | _ => emptyCriteria))

/-! ## Conversation orchestrator: `StockChatHandler.get_stock_recommendation`
(`chat_handler.py`, lines 34–114) -/

/-- One entry of a chat-completion message list: the history turns and the
system/user messages carry only `role` and `content`; the assistant turn of a
tool round-trip additionally carries `function_call` (name and raw argument
text), and the `function` turn carries `name`. -/
structure ChatMessage where
  role : String
  content : Option String
  name : Option String
  function_call : Option (String × String)
deriving DecidableEq, Repr

/-- The `{"role": "system", ...}` message. -/
def systemChatMessage (system_message : String) : ChatMessage :=
  ⟨"system", some system_message, none, none⟩

/-- The `{"role": "user", ...}` message. -/
def userChatMessage (user_query : String) : ChatMessage :=
  ⟨"user", some user_query, none, none⟩

/-- The message the model returns: free text content and/or a single function
call (name and raw argument text). -/
structure ModelMessage where
  content : Option String
  function_call : Option (String × String)
deriving DecidableEq, Repr

/-- Python `l[-n:]`: the trailing window of at most `n` elements. -/
def lastN (n : Nat) (l : List α) : List α := l.drop (l.length - n)

/-- The message list sent to the first model call (lines 50–56):
`[system, user]` followed by `conversation_history[-6:]`. -/
def buildMessages (system_message : String) (history : List ChatMessage)
    (user_query : String) : List ChatMessage :=
  [systemChatMessage system_message, userChatMessage user_query] ++
    lastN 6 history

/-- The result dictionary of `get_stock_recommendation`.  On success `error`
is `none` and the keys are `{response, function_calls, recommendations}`; the
`except` branch returns `{error, response}` (rendered with `some` error and
the other fields empty).  A recorded function call is (name, raw argument
text, serialized result). -/
structure RecommendationResult where
  response : Option String
  function_calls : List (String × String × String)
  recommendations : List String
  error : Option String
deriving DecidableEq, Repr

/-- The fixed user-facing fallback of the `except` branch. -/
def fallbackMessage : String :=
  "I'm sorry, I encountered an error while processing your request. Please try again."

/-- `get_stock_recommendation(user_query)`.  The two blocking
chat-completion calls are the oracles `modelCall` and `followupCall`; an
`Except.error` from either is the fault the source's `try/except` catches, at
which point the error envelope is returned and the handler state
(`conversation_history`) is left as it was.  `execTool` is
`process_openai_function_call`, which catches all its own faults and always
returns a serialized result string.  The returned pair is (result dict, new
conversation history). -/
def get_stock_recommendation
    (modelCall : List ChatMessage → Except String ModelMessage)
    (followupCall : List ChatMessage → Except String ModelMessage)
    (execTool : String → String → String)
    (system_message : String) (history : List ChatMessage)
    (user_query : String) : RecommendationResult × List ChatMessage :=
  let messages := buildMessages system_message history user_query
  match modelCall messages with
  | Except.error e =>
    ({ response := some fallbackMessage, function_calls := [],
       recommendations := [], error := some e }, history)
  | Except.ok message =>
    match message.function_call with
    | none =>
      ({ response := message.content, function_calls := [],
         recommendations := [], error := none },
       history ++ [userChatMessage user_query,
                   ⟨"assistant", message.content, none, none⟩])
    | some fc =>
      let function_result := execTool fc.1 fc.2
      let follow_up_messages := messages ++
        [⟨"assistant", message.content, none, some fc⟩,
         ⟨"function", some function_result, some fc.1, none⟩]
      match followupCall follow_up_messages with
      | Except.error e =>
        ({ response := some fallbackMessage, function_calls := [],
           recommendations := [], error := some e }, history)
      | Except.ok follow_up_message =>
        ({ response := follow_up_message.content,
           function_calls := [(fc.1, fc.2, function_result)],
           recommendations := [], error := none },
         history ++ [userChatMessage user_query,
                     ⟨"assistant", follow_up_message.content, none, none⟩])

/-! ## Sample data

Concrete rows used to evaluate the embedded engine at specific inputs.  All
nullable numeric cells are null so that every evaluation stays in the
kernel-computable fragment. -/

/-- A 4-star software row with a recognized evaluation. -/
def sampleA : StockRecord :=
  ⟨"AAA", "ISIN-A", "Alpha", 4, some "Technology", some "Software", none, none,
   some "positive", none, some "undervalued", none, none, none, none, none, none⟩

/-- A 2-star software row whose `Global Evaluation` string `"meh"` is not one
of the seven recognized categories. -/
def sampleB : StockRecord :=
  ⟨"BBB", "ISIN-B", "Beta", 2, some "Technology", some "Software", none, none,
   some "meh", none, none, none, none, none, none, none, none⟩

/-- A 2-star finance row with a null evaluation. -/
def sampleC : StockRecord :=
  ⟨"CCC", "ISIN-C", "Gamma", 2, some "Finance", some "Banks", none, none,
   none, none, none, none, none, none, none, none, none⟩

/-- A 1-star row with null classification cells. -/
def sampleD : StockRecord :=
  ⟨"DDD", "ISIN-D", "Delta", 1, none, none, none, none,
   some "negative", none, none, none, none, none, none, none, none⟩

/-- A four-row sample table. -/
def sampleTable : List StockRecord := [sampleA, sampleB, sampleC, sampleD]

/-! ## Helper lemmas -/

section NlargestLemmas

variable {κ : Type} [LinearOrder κ] (key : α → κ)

theorem mem_nlargestBy {n : Nat} {l : List α} {a : α}
    (h : a ∈ nlargestBy key n l) : a ∈ l := by
  have := List.mem_of_mem_take h
  exact (List.mem_insertionSort (fun a b => key b ≤ key a)).mp this

theorem length_nlargestBy (n : Nat) (l : List α) :
    (nlargestBy key n l).length ≤ n := by
  simp [nlargestBy]

/-- The output of `nlargestBy` is sorted non-increasing in the key. -/
theorem sorted_nlargestBy (n : Nat) (l : List α) :
    (nlargestBy key n l).Pairwise (fun a b => key b ≤ key a) := by
  haveI : IsTotal α (fun a b => key b ≤ key a) :=
    ⟨fun a b => (le_total (key b) (key a)).imp id id⟩
  haveI : IsTrans α (fun a b => key b ≤ key a) :=
    ⟨fun _ _ _ hab hbc => le_trans hbc hab⟩
  have h := List.sorted_insertionSort (fun a b => key b ≤ key a) l
  exact h.sublist (List.take_sublist n _)

/-- Stability of `nlargestBy`: any key-constant selection of the input
survives in its original order. -/
theorem filter_nlargestBy_sublist (n : Nat) (l : List α) (p : α → Bool)
    (hp : ∀ a b, p a → p b → key a = key b) :
    List.Sublist ((nlargestBy key n l).filter p) (l.filter p) := by
  have hsub : List.Sublist (l.filter p)
      (l.insertionSort (fun a b => key b ≤ key a)) := by
    apply List.sublist_insertionSort
    · apply List.pairwise_of_forall_mem_list
      intro a ha b hb
      have hpa := (List.mem_filter.mp ha).2
      have hpb := (List.mem_filter.mp hb).2
      exact le_of_eq (hp b a hpb hpa)
    · exact List.filter_sublist l
  have hperm : (l.insertionSort (fun a b => key b ≤ key a)).filter p ~
      l.filter p :=
    (List.perm_insertionSort (fun a b => key b ≤ key a) l).filter p
  have heq : (l.insertionSort (fun a b => key b ≤ key a)).filter p =
      l.filter p := by
    have hsub' : List.Sublist (l.filter p)
        ((l.insertionSort (fun a b => key b ≤ key a)).filter p) := by
      have := hsub.filter p
      simpa [List.filter_filter, Bool.and_self] using this
    exact (hsub'.eq_of_length hperm.length_eq.symm).symm
  have hfinal :=
    (List.take_sublist n
      (l.insertionSort (fun a b => key b ≤ key a))).filter p
  rw [heq] at hfinal
  exact hfinal

end NlargestLemmas

theorem mem_pdUnique [DecidableEq α] {l : List α} {a : α} :
    a ∈ pdUnique l ↔ a ∈ l := by
  induction l with
  | nil => simp [pdUnique]
  | cons b rest ih =>
    rw [pdUnique]
    by_cases hab : a = b
    · subst hab; simp
    · simp only [List.mem_cons, List.mem_filter, ih, hab, false_or]
      constructor
      · rintro ⟨h, -⟩; exact h
      · intro h; exact ⟨h, by simpa using hab⟩

theorem nodup_pdUnique [DecidableEq α] (l : List α) : (pdUnique l).Nodup := by
  induction l with
  | nil => simp [pdUnique]
  | cons b rest ih =>
    rw [pdUnique]
    refine List.Nodup.cons ?_ (ih.filter _)
    intro hmem
    rcases List.mem_filter.mp hmem with ⟨-, hne⟩
    simp at hne

/-- `nlargestBy` with a budget at least the list length keeps every row. -/
theorem mem_nlargestBy_of_length_le {κ : Type} [LinearOrder κ] (key : α → κ)
    {n : Nat} {l : List α} {a : α} (ha : a ∈ l) (hn : l.length ≤ n) :
    a ∈ nlargestBy key n l := by
  unfold nlargestBy
  rw [List.take_of_length_le]
  · exact (List.mem_insertionSort (fun a b => key b ≤ key a)).mpr ha
  · rw [List.length_insertionSort]
    exact hn

/-! ## Claim C1 -/

/-- C1: for every table, `min_stars` `m` and limit `k`, every record returned
by `get_top_stocks_by_stars(m, k)` has `stars ≥ m`, the returned list is
sorted non-increasing by stars with length at most `k`, and records with equal
star ratings appear in their original row order (the entries at any fixed star
value form a subsequence of the table's rows at that value, projected). -/
theorem C1_top_by_stars (tbl : List StockRecord) (m : Int) (k : Nat)
    (stocks : List TopStockInfo) (total returned : Nat) (fc : String)
    (h : get_top_stocks_by_stars tbl m k =
      TopStocksResult.ok stocks total returned fc) :
    (∀ s ∈ stocks, m ≤ s.stars) ∧
    stocks.Pairwise (fun a b => b.stars ≤ a.stars) ∧
    stocks.length ≤ k ∧
    ∀ v : Int, List.Sublist (stocks.filter (fun s => s.stars = v))
      ((tbl.filter (fun r => r.stars = v)).map mkTopStockInfo) := by
  by_cases he : tbl.isEmpty
  · simp [get_top_stocks_by_stars, he] at h
  · simp only [get_top_stocks_by_stars, he, Bool.false_eq_true, if_false,
      TopStocksResult.ok.injEq] at h
    obtain ⟨hs, -, -, -⟩ := h
    subst hs
    refine ⟨?_, ?_, ?_, ?_⟩
    · intro s hs
      obtain ⟨r, hr, rfl⟩ := List.mem_map.mp hs
      have hmem := mem_nlargestBy (fun r : StockRecord => r.stars) hr
      have h2 := List.mem_filter.mp hmem
      exact of_decide_eq_true h2.2
    · exact List.pairwise_map.mpr (sorted_nlargestBy _ _ _)
    · rw [List.length_map]
      exact length_nlargestBy _ _ _
    · intro v
      rw [List.filter_map]
      have h1 := filter_nlargestBy_sublist (fun r : StockRecord => r.stars) k
        (tbl.filter (fun r => decide (m ≤ r.stars)))
        (fun r => decide (r.stars = v))
        (fun a b ha hb => by
          simp only [decide_eq_true_eq] at ha hb
          show a.stars = b.stars
          rw [ha, hb])
      have h2 : List.Sublist
          ((tbl.filter (fun r => decide (m ≤ r.stars))).filter
            (fun r => decide (r.stars = v)))
          (tbl.filter (fun r => decide (r.stars = v))) :=
        (List.filter_sublist tbl).filter _
      exact (h1.trans h2).map mkTopStockInfo

/-- Witness for C1: the theorem applied to the sample table with `m = 2`,
`k = 2`; the call returns the two projected rows `[sampleA, sampleB]`. -/
theorem C1_top_by_stars_witness :
    (∀ s ∈ [mkTopStockInfo sampleA, mkTopStockInfo sampleB], (2 : Int) ≤ s.stars) ∧
    List.Pairwise (fun a b : TopStockInfo => b.stars ≤ a.stars)
      [mkTopStockInfo sampleA, mkTopStockInfo sampleB] ∧
    ([mkTopStockInfo sampleA, mkTopStockInfo sampleB] : List TopStockInfo).length ≤ 2 ∧
    ∀ v : Int, List.Sublist
      (([mkTopStockInfo sampleA, mkTopStockInfo sampleB] : List TopStockInfo).filter
        (fun s => s.stars = v))
      ((sampleTable.filter (fun r => r.stars = v)).map mkTopStockInfo) :=
  C1_top_by_stars sampleTable 2 2
    [mkTopStockInfo sampleA, mkTopStockInfo sampleB] 3 2 "Stars >= 2" (by decide)

/-! ## Claim C2 -/

theorem mem_applyIf {o : Option β} {p : β → StockRecord → Bool}
    {l : List StockRecord} {r : StockRecord} :
    r ∈ applyIf o p l ↔ r ∈ l ∧ criterionHolds o p r = true := by
  cases o with
  | none => simp [applyIf, criterionHolds]
  | some v => simp [applyIf, criterionHolds, List.mem_filter]

/-- Membership in the sequentially filtered frame is membership in the table
together with the conjunction of all present criteria. -/
theorem mem_searchFiltered {tbl : List StockRecord} {c : Criteria}
    {r : StockRecord} :
    r ∈ searchFiltered tbl c ↔ r ∈ tbl ∧ satisfiesCriteria c r = true := by
  simp only [searchFiltered, mem_applyIf, satisfiesCriteria, Bool.and_eq_true]
  tauto

theorem applyIf_mono {o : Option β} {p : β → StockRecord → Bool}
    {l l' : List StockRecord} (h : List.Sublist l' l) :
    List.Sublist (applyIf o p l') (applyIf o p l) := by
  cases o with
  | none => exact h
  | some v => exact h.filter _

theorem applyIf_some_sublist {v : β} {p : β → StockRecord → Bool}
    {l : List StockRecord} :
    List.Sublist (applyIf (some v) p l) (applyIf none p l) :=
  List.filter_sublist l

/-- Adding one constraint keeps the filtered frame a subsequence of the
original filtered frame. -/
theorem searchFiltered_addsConstraint_sublist {tbl : List StockRecord}
    {c c' : Criteria} (h : AddsConstraint c c') :
    List.Sublist (searchFiltered tbl c') (searchFiltered tbl c) := by
  cases h with
  | min_stars v hk =>
    simp only [searchFiltered]
    exact applyIf_mono (applyIf_mono (applyIf_mono (applyIf_mono
      (applyIf_mono (applyIf_mono (applyIf_mono
        (hk ▸ applyIf_some_sublist)))))))
  | max_stars v hk =>
    simp only [searchFiltered]
    exact applyIf_mono (applyIf_mono (applyIf_mono (applyIf_mono
      (applyIf_mono (applyIf_mono (hk ▸ applyIf_some_sublist))))))
  | min_ytd_performance v hk =>
    simp only [searchFiltered]
    exact applyIf_mono (applyIf_mono (applyIf_mono (applyIf_mono
      (applyIf_mono (hk ▸ applyIf_some_sublist)))))
  | max_pe_ratio v hk =>
    simp only [searchFiltered]
    exact applyIf_mono (applyIf_mono (applyIf_mono (applyIf_mono
      (hk ▸ applyIf_some_sublist))))
  | valuation_rating s hk =>
    simp only [searchFiltered]
    exact applyIf_mono (applyIf_mono (applyIf_mono
      (hk ▸ applyIf_some_sublist)))
  | global_evaluation s hk =>
    simp only [searchFiltered]
    exact applyIf_mono (applyIf_mono (hk ▸ applyIf_some_sublist))
  | sector s hk =>
    simp only [searchFiltered]
    exact applyIf_mono (hk ▸ applyIf_some_sublist)
  | industry s hk =>
    simp only [searchFiltered]
    exact hk ▸ applyIf_some_sublist
  | limit v hk =>
    simp only [searchFiltered]
    exact List.Sublist.refl _

/-- For a non-empty table the search envelope reports the filtered frame's
size as `total_matches` and returns its limit-truncated top slice. -/
theorem search_ok_of_ne_nil {tbl : List StockRecord} (hne : tbl ≠ [])
    (c : Criteria) :
    search_stocks_by_criteria tbl c =
      SearchResult.ok
        ((nlargestBy (fun r => r.stars) (c.limit.getD 20)
          (searchFiltered tbl c)).map mkSearchStockInfo)
        (searchFiltered tbl c).length
        ((nlargestBy (fun r => r.stars) (c.limit.getD 20)
          (searchFiltered tbl c)).map mkSearchStockInfo).length
        (searchAppliedFilters c) := by
  have he : tbl.isEmpty = false := by
    cases tbl with
    | nil => exact absurd rfl hne
    | cons a t => rfl
  simp only [search_stocks_by_criteria, he, Bool.false_eq_true, if_false]

/-- C2: the search's match set (reported as `total_matches`, from which the
`stocks` list is the limit-truncated top slice) is an intersection of the
present criteria, and adding one constraint never increases it: membership
shrinks and so does its reported size. -/
theorem C2_search_monotonic (tbl : List StockRecord) (c c' : Criteria)
    (h : AddsConstraint c c') :
    (∀ r, r ∈ searchFiltered tbl c ↔ r ∈ tbl ∧ satisfiesCriteria c r = true) ∧
    (∀ r ∈ searchFiltered tbl c', r ∈ searchFiltered tbl c) ∧
    (searchFiltered tbl c').length ≤ (searchFiltered tbl c).length ∧
    (tbl ≠ [] → ∃ stocks stocks',
      search_stocks_by_criteria tbl c =
        SearchResult.ok stocks (searchFiltered tbl c).length stocks.length
          (searchAppliedFilters c) ∧
      search_stocks_by_criteria tbl c' =
        SearchResult.ok stocks' (searchFiltered tbl c').length stocks'.length
          (searchAppliedFilters c')) := by
  have hsub := @searchFiltered_addsConstraint_sublist tbl c c' h
  refine ⟨fun r => mem_searchFiltered, fun r hr => hsub.mem hr,
    hsub.length_le, fun hne => ?_⟩
  exact ⟨_, _, search_ok_of_ne_nil hne c, search_ok_of_ne_nil hne c'⟩

/-- Witness for C2: the theorem applied to the sample table, the empty
criteria and the empty criteria extended with `min_stars = 3`. -/
theorem C2_search_monotonic_witness :
    (∀ r, r ∈ searchFiltered sampleTable emptyCriteria ↔
      r ∈ sampleTable ∧ satisfiesCriteria emptyCriteria r = true) ∧
    (∀ r ∈ searchFiltered sampleTable { emptyCriteria with min_stars := some 3 },
      r ∈ searchFiltered sampleTable emptyCriteria) ∧
    (searchFiltered sampleTable { emptyCriteria with min_stars := some 3 }).length ≤
      (searchFiltered sampleTable emptyCriteria).length ∧
    (sampleTable ≠ [] → ∃ stocks stocks',
      search_stocks_by_criteria sampleTable emptyCriteria =
        SearchResult.ok stocks (searchFiltered sampleTable emptyCriteria).length
          stocks.length (searchAppliedFilters emptyCriteria) ∧
      search_stocks_by_criteria sampleTable { emptyCriteria with min_stars := some 3 } =
        SearchResult.ok stocks'
          (searchFiltered sampleTable { emptyCriteria with min_stars := some 3 }).length
          stocks'.length
          (searchAppliedFilters { emptyCriteria with min_stars := some 3 })) :=
  C2_search_monotonic sampleTable emptyCriteria
    { emptyCriteria with min_stars := some 3 }
    (AddsConstraint.min_stars emptyCriteria 3 rfl)

/-! ## Claim C3 -/

/-- The `sort_by = "Global Evaluation"` branch of the shared sort step. -/
theorem sortFilteredStocks_globalEval (limit : Nat) (l : List StockRecord) :
    sortFilteredStocks "Global Evaluation" limit l =
      nlargestBy (fun r => evalRank r.global_evaluation) limit l := rfl

/-- C3: in an industry or sector filter sorted by Global Evaluation, a row
whose global-evaluation string is not one of the seven recognized categories
is ranked 3 (the neutral midpoint): the call still returns a success envelope,
the row stays in the matched set counted by the envelope, and it appears in
the returned stocks whenever the limit does not truncate it away. -/
theorem C3_unrecognized_eval_neutral (tbl : List StockRecord) (name : String)
    (limit : Nat) (r : StockRecord) (hr : r ∈ tbl)
    (hunrec : ∀ s ∈ eval_order, r.global_evaluation ≠ some s) :
    evalRank r.global_evaluation = 3 ∧
    (cellContains r.industry name = true →
      ∃ stocks total,
        filter_stocks_by_industry tbl name "Global Evaluation" limit =
          IndustryFilterResult.ok stocks name total stocks.length
            "Global Evaluation" ∧
        total = (tbl.filter (fun x => cellContains x.industry name)).length ∧
        ((tbl.filter (fun x => cellContains x.industry name)).length ≤ limit →
          mkIndustryStockInfo r ∈ stocks)) ∧
    (cellContains r.sector name = true →
      ∃ stocks total,
        filter_stocks_by_sector tbl name "Global Evaluation" limit =
          SectorFilterResult.ok stocks name total stocks.length
            "Global Evaluation" ∧
        total = (tbl.filter (fun x => cellContains x.sector name)).length ∧
        ((tbl.filter (fun x => cellContains x.sector name)).length ≤ limit →
          mkSectorStockInfo r ∈ stocks)) := by
  have he : tbl.isEmpty = false := by
    cases tbl with
    | nil => cases hr
    | cons a t => rfl
  refine ⟨?_, ?_, ?_⟩
  · cases hge : r.global_evaluation with
    | none => rfl
    | some s =>
      by_cases hs : s ∈ eval_order
      · exact absurd hge (hunrec s hs)
      · simp [evalRank, hs]
  · intro hmatch
    have hrm : r ∈ tbl.filter (fun x => cellContains x.industry name) :=
      List.mem_filter.mpr ⟨hr, hmatch⟩
    have hm : (tbl.filter (fun x => cellContains x.industry name)).isEmpty = false := by
      cases hmem : tbl.filter (fun x => cellContains x.industry name) with
      | nil => rw [hmem] at hrm; cases hrm
      | cons a t => rfl
    refine ⟨(nlargestBy (fun x => evalRank x.global_evaluation) limit
        (tbl.filter (fun x => cellContains x.industry name))).map mkIndustryStockInfo,
      (tbl.filter (fun x => cellContains x.industry name)).length, ?_, rfl, ?_⟩
    · simp only [filter_stocks_by_industry, he, Bool.false_eq_true, if_false,
        hm, sortFilteredStocks_globalEval, List.length_map]
    · intro hlen
      exact List.mem_map_of_mem mkIndustryStockInfo
        (mem_nlargestBy_of_length_le _ hrm hlen)
  · intro hmatch
    have hrm : r ∈ tbl.filter (fun x => cellContains x.sector name) :=
      List.mem_filter.mpr ⟨hr, hmatch⟩
    have hm : (tbl.filter (fun x => cellContains x.sector name)).isEmpty = false := by
      cases hmem : tbl.filter (fun x => cellContains x.sector name) with
      | nil => rw [hmem] at hrm; cases hrm
      | cons a t => rfl
    refine ⟨(nlargestBy (fun x => evalRank x.global_evaluation) limit
        (tbl.filter (fun x => cellContains x.sector name))).map mkSectorStockInfo,
      (tbl.filter (fun x => cellContains x.sector name)).length, ?_, rfl, ?_⟩
    · simp only [filter_stocks_by_sector, he, Bool.false_eq_true, if_false,
        hm, sortFilteredStocks_globalEval, List.length_map]
    · intro hlen
      exact List.mem_map_of_mem mkSectorStockInfo
        (mem_nlargestBy_of_length_le _ hrm hlen)

/-- Witness for C3: the theorem applied to the sample table and the row
`sampleB`, whose evaluation string `"meh"` is unrecognized. -/
theorem C3_unrecognized_eval_neutral_witness :
    evalRank sampleB.global_evaluation = 3 ∧
    (cellContains sampleB.industry "soft" = true →
      ∃ stocks total,
        filter_stocks_by_industry sampleTable "soft" "Global Evaluation" 5 =
          IndustryFilterResult.ok stocks "soft" total stocks.length
            "Global Evaluation" ∧
        total = (sampleTable.filter (fun x => cellContains x.industry "soft")).length ∧
        ((sampleTable.filter (fun x => cellContains x.industry "soft")).length ≤ 5 →
          mkIndustryStockInfo sampleB ∈ stocks)) ∧
    (cellContains sampleB.sector "soft" = true →
      ∃ stocks total,
        filter_stocks_by_sector sampleTable "soft" "Global Evaluation" 5 =
          SectorFilterResult.ok stocks "soft" total stocks.length
            "Global Evaluation" ∧
        total = (sampleTable.filter (fun x => cellContains x.sector "soft")).length ∧
        ((sampleTable.filter (fun x => cellContains x.sector "soft")).length ≤ 5 →
          mkSectorStockInfo sampleB ∈ stocks)) :=
  C3_unrecognized_eval_neutral sampleTable "soft" 5 sampleB (by decide) (by decide)

/-! ## Claim C4 -/

/-- The comparison loop, in closed form: the found entries are the mapped
first matches of the resolvable ids in input order, and `not_found` collects
the unresolvable ids in input order. -/
theorem comparePass_eq (tbl : List StockRecord) (ids : List String) :
    comparePass tbl ids =
      (ids.filterMap
        (fun i => (tbl.find? (fun r => idMatches i r)).map mkCompareStockInfo),
       ids.filter (fun i => (tbl.find? (fun r => idMatches i r)).isNone)) := by
  induction ids with
  | nil => rfl
  | cons i rest ih =>
    simp only [comparePass, ih, List.filterMap_cons, List.filter_cons]
    cases hfind : tbl.find? (fun r => idMatches i r) with
    | none => simp
    | some r => simp

/-- C4: for a non-empty table, `compare_stocks_performance` resolves each id
independently: ids with no match are collected into `not_found` in input
order, each matching id contributes exactly the entry of its first match,
found entries keep the input order, and no unresolved id aborts the call; in
particular `compare([a,b,c])` with only `b` absent yields `not_found = [b]`
and exactly the entries of `a` and `c`, in that order. -/
theorem C4_compare_partial (tbl : List StockRecord) (h : tbl ≠ [])
    (ids : List String) :
    (compare_stocks_performance tbl ids =
      CompareResult.ok
        (ids.filterMap
          (fun i => (tbl.find? (fun r => idMatches i r)).map mkCompareStockInfo))
        (ids.filter (fun i => (tbl.find? (fun r => idMatches i r)).isNone))
        (ids.filterMap
          (fun i => (tbl.find? (fun r => idMatches i r)).map mkCompareStockInfo)).length) ∧
    (∀ a b c ra rc,
      tbl.find? (fun r => idMatches a r) = some ra →
      tbl.find? (fun r => idMatches b r) = none →
      tbl.find? (fun r => idMatches c r) = some rc →
      compare_stocks_performance tbl [a, b, c] =
        CompareResult.ok [mkCompareStockInfo ra, mkCompareStockInfo rc] [b] 2) := by
  have he : tbl.isEmpty = false := by
    cases tbl with
    | nil => exact absurd rfl h
    | cons a t => rfl
  constructor
  · simp only [compare_stocks_performance, he, Bool.false_eq_true, if_false,
      comparePass_eq]
  · intro a b c ra rc ha hb hc
    simp only [compare_stocks_performance, he, Bool.false_eq_true, if_false,
      comparePass_eq]
    simp [ha, hb, hc]

/-- Witness for C4: the theorem applied to the sample table with the id list
`["AAA", "XXX", "ISIN-C"]`, of which only `"XXX"` is unresolvable. -/
theorem C4_compare_partial_witness :
    (compare_stocks_performance sampleTable ["AAA", "XXX", "ISIN-C"] =
      CompareResult.ok
        ((["AAA", "XXX", "ISIN-C"] : List String).filterMap
          (fun i => (sampleTable.find? (fun r => idMatches i r)).map mkCompareStockInfo))
        ((["AAA", "XXX", "ISIN-C"] : List String).filter
          (fun i => (sampleTable.find? (fun r => idMatches i r)).isNone))
        ((["AAA", "XXX", "ISIN-C"] : List String).filterMap
          (fun i => (sampleTable.find? (fun r => idMatches i r)).map mkCompareStockInfo)).length) ∧
    (∀ a b c ra rc,
      sampleTable.find? (fun r => idMatches a r) = some ra →
      sampleTable.find? (fun r => idMatches b r) = none →
      sampleTable.find? (fun r => idMatches c r) = some rc →
      compare_stocks_performance sampleTable [a, b, c] =
        CompareResult.ok [mkCompareStockInfo ra, mkCompareStockInfo rc] [b] 2) :=
  C4_compare_partial sampleTable (by decide) ["AAA", "XXX", "ISIN-C"]

/-! ## Claim C5 -/

/-- C5: for a non-empty table, an industry (or sector) name matching no row
yields the error envelope that carries the complete distinct industry
(sector) set of the table — distinct, and complete in the sense of containing
exactly the column's values — with an empty stocks list. -/
theorem C5_no_match_carries_catalogue (tbl : List StockRecord) (h : tbl ≠ [])
    (iname sname sort_by : String) (limit : Nat)
    (hind : ∀ r ∈ tbl, cellContains r.industry iname = false)
    (hsec : ∀ r ∈ tbl, cellContains r.sector sname = false) :
    (filter_stocks_by_industry tbl iname sort_by limit =
      IndustryFilterResult.notFound s!"No stocks found for industry: {iname}"
        (pdUnique (tbl.map (fun r => r.industry))) []) ∧
    (pdUnique (tbl.map (fun r => r.industry))).Nodup ∧
    (∀ v, v ∈ pdUnique (tbl.map (fun r => r.industry)) ↔
      v ∈ tbl.map (fun r => r.industry)) ∧
    (filter_stocks_by_sector tbl sname sort_by limit =
      SectorFilterResult.notFound s!"No stocks found for sector: {sname}"
        (pdUnique (tbl.map (fun r => r.sector))) []) ∧
    (pdUnique (tbl.map (fun r => r.sector))).Nodup ∧
    (∀ v, v ∈ pdUnique (tbl.map (fun r => r.sector)) ↔
      v ∈ tbl.map (fun r => r.sector)) := by
  have he : tbl.isEmpty = false := by
    cases tbl with
    | nil => exact absurd rfl h
    | cons a t => rfl
  have hm1 : (tbl.filter (fun r => cellContains r.industry iname)).isEmpty = true := by
    rw [List.isEmpty_iff]
    rw [List.filter_eq_nil_iff]
    intro a ha
    simp [hind a ha]
  have hm2 : (tbl.filter (fun r => cellContains r.sector sname)).isEmpty = true := by
    rw [List.isEmpty_iff]
    rw [List.filter_eq_nil_iff]
    intro a ha
    simp [hsec a ha]
  refine ⟨?_, nodup_pdUnique _, fun v => mem_pdUnique, ?_,
    nodup_pdUnique _, fun v => mem_pdUnique⟩
  · simp only [filter_stocks_by_industry, he, Bool.false_eq_true, if_false,
      hm1, if_true]
  · simp only [filter_stocks_by_sector, he, Bool.false_eq_true, if_false,
      hm2, if_true]

/-- Witness for C5: the theorem applied to the sample table with the
unmatched name `"zzz"` for both columns. -/
theorem C5_no_match_carries_catalogue_witness :
    (filter_stocks_by_industry sampleTable "zzz" "Stars" 3 =
      IndustryFilterResult.notFound "No stocks found for industry: zzz"
        (pdUnique (sampleTable.map (fun r => r.industry))) []) ∧
    (pdUnique (sampleTable.map (fun r => r.industry))).Nodup ∧
    (∀ v, v ∈ pdUnique (sampleTable.map (fun r => r.industry)) ↔
      v ∈ sampleTable.map (fun r => r.industry)) ∧
    (filter_stocks_by_sector sampleTable "zzz" "Stars" 3 =
      SectorFilterResult.notFound "No stocks found for sector: zzz"
        (pdUnique (sampleTable.map (fun r => r.sector))) []) ∧
    (pdUnique (sampleTable.map (fun r => r.sector))).Nodup ∧
    (∀ v, v ∈ pdUnique (sampleTable.map (fun r => r.sector)) ↔
      v ∈ sampleTable.map (fun r => r.sector)) :=
  C5_no_match_carries_catalogue sampleTable (by decide) "zzz" "zzz" "Stars" 3
    (by decide) (by decide)

/-! ## Claim C9 -/

/-- The mean of a column with no non-null value (pandas' 0/0) is null. -/
theorem pdMeanOpt_eq_none_of_all_none {l : List (Option ℚ)}
    (h : l.all Option.isNone = true) : pdMeanOpt l = none := by
  have hnil : l.filterMap id = [] := by
    rw [List.filterMap_eq_nil_iff]
    intro a ha
    have := List.all_eq_true.mp h a ha
    exact Option.isNone_iff_eq_none.mp this
  simp [pdMeanOpt, hnil]

/-- C9: whenever the rows matching an industry leave a numeric aggregate
undefined (an all-null column, hence a 0/0 mean), `get_industry_overview`
still returns a success envelope and surfaces that aggregate as null. -/
theorem C9_overview_null_aggregates (tbl : List StockRecord) (iname : String)
    (hm : tbl.filter (fun r => cellContains r.industry iname) ≠ []) :
    (∃ ov, get_industry_overview tbl iname = OverviewResult.ok ov) ∧
    (∀ ov, get_industry_overview tbl iname = OverviewResult.ok ov →
      (((tbl.filter (fun r => cellContains r.industry iname)).map
          (fun r => r.ytd_performance)).all Option.isNone = true →
        ov.average_ytd_performance = none) ∧
      (((tbl.filter (fun r => cellContains r.industry iname)).map
          (fun r => r.market_cap_bn)).all Option.isNone = true →
        ov.average_market_cap_bn = none) ∧
      (((tbl.filter (fun r => cellContains r.industry iname)).map
          (fun r => r.long_term_pe)).all Option.isNone = true →
        ov.average_pe_ratio = none) ∧
      (((tbl.filter (fun r => cellContains r.industry iname)).map
          (fun r => r.expected_dividend)).all Option.isNone = true →
        ov.average_expected_dividend = none)) := by
  have he : tbl.isEmpty = false := by
    cases tbl with
    | nil => simp at hm
    | cons a t => rfl
  have hm' : (tbl.filter (fun r => cellContains r.industry iname)).isEmpty = false := by
    cases hmem : tbl.filter (fun r => cellContains r.industry iname) with
    | nil => exact absurd hmem hm
    | cons a t => rfl
  simp only [get_industry_overview, he, Bool.false_eq_true, if_false, hm',
    OverviewResult.ok.injEq]
  refine ⟨⟨_, rfl⟩, ?_⟩
  intro ov heq
  subst heq
  exact ⟨fun h => pdMeanOpt_eq_none_of_all_none h,
    fun h => pdMeanOpt_eq_none_of_all_none h,
    fun h => pdMeanOpt_eq_none_of_all_none h,
    fun h => pdMeanOpt_eq_none_of_all_none h⟩

/-- Witness for C9: the theorem applied to the sample table and industry name
`"soft"`; all four nullable aggregate columns are all-null there. -/
theorem C9_overview_null_aggregates_witness :
    (∃ ov, get_industry_overview sampleTable "soft" = OverviewResult.ok ov) ∧
    (∀ ov, get_industry_overview sampleTable "soft" = OverviewResult.ok ov →
      (((sampleTable.filter (fun r => cellContains r.industry "soft")).map
          (fun r => r.ytd_performance)).all Option.isNone = true →
        ov.average_ytd_performance = none) ∧
      (((sampleTable.filter (fun r => cellContains r.industry "soft")).map
          (fun r => r.market_cap_bn)).all Option.isNone = true →
        ov.average_market_cap_bn = none) ∧
      (((sampleTable.filter (fun r => cellContains r.industry "soft")).map
          (fun r => r.long_term_pe)).all Option.isNone = true →
        ov.average_pe_ratio = none) ∧
      (((sampleTable.filter (fun r => cellContains r.industry "soft")).map
          (fun r => r.expected_dividend)).all Option.isNone = true →
        ov.average_expected_dividend = none)) :=
  C9_overview_null_aggregates sampleTable "soft" (by decide)

/-! ## Claims C6, C7, C8 -/

/-- C6 (amended): on a fault at either model call, the orchestrator returns
the error envelope with the fixed user-facing fallback message — but the
conversation history is left unchanged: contrary to the original claim, the
user's message is not appended on the error path. -/
theorem C6_fault_fallback_history_unchanged
    (modelCall followupCall : List ChatMessage → Except String ModelMessage)
    (execTool : String → String → String) (sys : String)
    (history : List ChatMessage) (q : String) (e : String)
    (hfault : modelCall (buildMessages sys history q) = Except.error e ∨
      ∃ m fc, modelCall (buildMessages sys history q) = Except.ok m ∧
        m.function_call = some fc ∧
        followupCall (buildMessages sys history q ++
          [⟨"assistant", m.content, none, some fc⟩,
           ⟨"function", some (execTool fc.1 fc.2), some fc.1, none⟩]) =
          Except.error e) :
    get_stock_recommendation modelCall followupCall execTool sys history q =
      ({ response := some fallbackMessage, function_calls := [],
         recommendations := [], error := some e }, history) := by
  rcases hfault with h1 | ⟨m, fc, h1, h2, h3⟩
  · simp only [get_stock_recommendation, h1]
  · simp only [get_stock_recommendation, h1, h2, h3]

/-- Witness for the amended C6: a first model call that always fails. -/
theorem C6_fault_fallback_history_unchanged_witness :
    get_stock_recommendation (fun _ => Except.error "boom")
      (fun _ => Except.error "x") (fun _ _ => "") "sys"
      [⟨"assistant", some "old", none, none⟩] "hello" =
      ({ response := some fallbackMessage, function_calls := [],
         recommendations := [], error := some "boom" },
       [⟨"assistant", some "old", none, none⟩]) :=
  C6_fault_fallback_history_unchanged (fun _ => Except.error "boom")
    (fun _ => Except.error "x") (fun _ _ => "") "sys"
    [⟨"assistant", some "old", none, none⟩] "hello" "boom" (Or.inl rfl)

/-- C6 counterexample: with a failing model call and empty prior history, the
error envelope is produced, yet the conversation history stays empty — the
user's message `"hello"` is not appended, refuting the claim that the history
is still updated with the user's message on a fault. -/
theorem C6_counterexample :
    (get_stock_recommendation (fun _ => Except.error "boom")
      (fun _ => Except.error "boom") (fun _ _ => "") "sys" [] "hello").1.error =
        some "boom" ∧
    (get_stock_recommendation (fun _ => Except.error "boom")
      (fun _ => Except.error "boom") (fun _ _ => "") "sys" [] "hello").2 = [] ∧
    userChatMessage "hello" ∉
      (get_stock_recommendation (fun _ => Except.error "boom")
        (fun _ => Except.error "boom") (fun _ _ => "") "sys" [] "hello").2 :=
  ⟨rfl, rfl, by intro hmem; simp only [get_stock_recommendation] at hmem; cases hmem⟩

/-- C7: after every successful orchestration call — with or without a tool
round-trip — exactly the user's message and the final assistant answer are
appended to the conversation history; no tool turn is persisted. -/
theorem C7_history_two_turns
    (modelCall followupCall : List ChatMessage → Except String ModelMessage)
    (execTool : String → String → String) (sys : String)
    (history : List ChatMessage) (q : String)
    (res : RecommendationResult) (hist' : List ChatMessage)
    (h : get_stock_recommendation modelCall followupCall execTool sys history q =
      (res, hist'))
    (hok : res.error = none) :
    hist' = history ++
      [userChatMessage q, ⟨"assistant", res.response, none, none⟩] ∧
    hist'.length = history.length + 2 := by
  simp only [get_stock_recommendation] at h
  cases h1 : modelCall (buildMessages sys history q) with
  | error e =>
    simp only [h1, Prod.mk.injEq] at h
    obtain ⟨hres, -⟩ := h
    rw [← hres] at hok
    simp at hok
  | ok message =>
    simp only [h1] at h
    cases h2 : message.function_call with
    | none =>
      simp only [h2, Prod.mk.injEq] at h
      obtain ⟨hres, hh⟩ := h
      subst hh
      rw [← hres]
      simp
    | some fc =>
      simp only [h2] at h
      cases h3 : followupCall (buildMessages sys history q ++
          [⟨"assistant", message.content, none, some fc⟩,
           ⟨"function", some (execTool fc.1 fc.2), some fc.1, none⟩]) with
      | error e =>
        simp only [h3, Prod.mk.injEq] at h
        obtain ⟨hres, -⟩ := h
        rw [← hres] at hok
        simp at hok
      | ok follow_up_message =>
        simp only [h3, Prod.mk.injEq] at h
        obtain ⟨hres, hh⟩ := h
        subst hh
        rw [← hres]
        simp

/-- Witness for C7: a model that answers directly with `"hi"`. -/
theorem C7_history_two_turns_witness :
    ([userChatMessage "hello", ⟨"assistant", some "hi", none, none⟩] :
        List ChatMessage) =
      [] ++ [userChatMessage "hello",
        ⟨"assistant",
          ({ response := some "hi", function_calls := [],
             recommendations := [], error := none } :
            RecommendationResult).response, none, none⟩] ∧
    ([userChatMessage "hello", ⟨"assistant", some "hi", none, none⟩] :
        List ChatMessage).length = ([] : List ChatMessage).length + 2 :=
  C7_history_two_turns (fun _ => Except.ok ⟨some "hi", none⟩)
    (fun _ => Except.ok ⟨some "hi", none⟩) (fun _ _ => "") "sys" [] "hello"
    { response := some "hi", function_calls := [], recommendations := [],
      error := none }
    [userChatMessage "hello", ⟨"assistant", some "hi", none, none⟩]
    rfl rfl

/-- C8 (amended): the message sequence sent to the model consists of the
system prompt, then the NEW user message, then the conversation history
truncated to its last 6 turns — the truncated history window follows the new
user message instead of preceding it as the original claim states. -/
theorem C8_message_order (sys : String) (history : List ChatMessage)
    (q : String) :
    buildMessages sys history q =
      [systemChatMessage sys, userChatMessage q] ++ lastN 6 history ∧
    List.IsSuffix (lastN 6 history) history ∧
    (lastN 6 history).length = min 6 history.length := by
  refine ⟨rfl, List.drop_suffix _ _, ?_⟩
  simp only [lastN, List.length_drop]
  omega

/-- C8 counterexample: with one prior history turn, the sequence actually
sent is `[system, user, turn]`, not the claimed `[system, turn, user]`. -/
theorem C8_counterexample :
    buildMessages "sys" [⟨"assistant", some "old", none, none⟩] "q" =
      [systemChatMessage "sys", userChatMessage "q",
       ⟨"assistant", some "old", none, none⟩] ∧
    buildMessages "sys" [⟨"assistant", some "old", none, none⟩] "q" ≠
      [systemChatMessage "sys", ⟨"assistant", some "old", none, none⟩,
       userChatMessage "q"] := by
  exact ⟨rfl, by decide⟩

/-! ## Claim C10 -/

/-- The empty-criteria search keeps the whole table as its match set. -/
theorem searchFiltered_empty (tbl : List StockRecord) :
    searchFiltered tbl emptyCriteria = tbl := rfl

/-- C10 (amended): a NON-empty argument payload lacking the `criteria_dict`
key runs the search with empty criteria — a success envelope of at most 20
stocks ordered non-increasingly by stars, with no applied filters and the
whole table as match set.  (An EMPTY payload instead takes the no-argument
dispatch branch and yields the invalid-arguments envelope; see the
counterexample.) -/
theorem C10_missing_criteria_dict (tbl : List StockRecord)
    (args : List (String × ArgValue)) (hne : args ≠ [])
    (hno : args.lookup "criteria_dict" = none) (htbl : tbl ≠ []) :
    execute_search_function tbl args =
      ExecSearchResult.result (search_stocks_by_criteria tbl emptyCriteria) ∧
    (∃ stocks, search_stocks_by_criteria tbl emptyCriteria =
      SearchResult.ok stocks tbl.length stocks.length [] ∧
      stocks.length ≤ 20 ∧
      stocks.Pairwise (fun a b => b.stars ≤ a.stars)) := by
  have hae : args.isEmpty = false := by
    cases args with
    | nil => exact absurd rfl hne
    | cons a t => rfl
  constructor
  · simp only [execute_search_function, hae, Bool.false_eq_true, if_false, hno]
  · refine ⟨(nlargestBy (fun r => r.stars) 20 tbl).map mkSearchStockInfo,
      ?_, ?_, ?_⟩
    · have h := search_ok_of_ne_nil htbl emptyCriteria
      rw [searchFiltered_empty] at h
      exact h
    · rw [List.length_map]
      exact length_nlargestBy _ _ _
    · exact List.pairwise_map.mpr (sorted_nlargestBy _ _ _)

/-- Witness for the amended C10: the payload `[("foo", "bar")]` is non-empty
and lacks `criteria_dict`. -/
theorem C10_missing_criteria_dict_witness :
    execute_search_function sampleTable [("foo", ArgValue.str "bar")] =
      ExecSearchResult.result
        (search_stocks_by_criteria sampleTable emptyCriteria) ∧
    (∃ stocks, search_stocks_by_criteria sampleTable emptyCriteria =
      SearchResult.ok stocks sampleTable.length stocks.length [] ∧
      stocks.length ≤ 20 ∧
      stocks.Pairwise (fun a b => b.stars ≤ a.stars)) :=
  C10_missing_criteria_dict sampleTable [("foo", ArgValue.str "bar")]
    (by decide) (by decide) (by decide)

/-- C10 counterexample: on an EMPTY payload the dispatcher calls the engine
function with no argument at all; the missing required parameter becomes an
invalid-arguments envelope, not the claimed success envelope. -/
theorem C10_counterexample :
    execute_search_function sampleTable [] =
      ExecSearchResult.invalidArguments
        "Invalid arguments for function 'search_stocks_by_criteria': search_stocks_by_criteria() missing 1 required positional argument: 'criteria_dict'"
        [] ∧
    execute_search_function sampleTable [] ≠
      ExecSearchResult.result
        (search_stocks_by_criteria sampleTable emptyCriteria) := by
  exact ⟨rfl, by decide⟩

end StockAdvisor
